import Mathlib

/-!
Verification development for the itch download/install orchestration core.

The definitions below are shallow embeddings of:
  - the downloads Redux reducer (reducers/downloads.ts),
  - the download watcher (src/reactors/downloads/download-watcher.ts),
  - the deploy engine (src/util/deploy.ts),
  - the update checker (reactors/updater.ts),
  - the task runner (reactors/tasks/as-task.ts),
  - the launch entry point (reactors/launch/perform-launch.ts).

Stateful/async code is embedded as explicit state passing; a step relation
over operation sequences models the watcher's event loop.  File systems are
modelled as lists of relative paths with set-membership semantics.
-/

namespace Itch

/-- Reason a download item was queued (types/tasks.ts, `DownloadReason`). -/
inductive DownloadReason where
  | install
  | reinstall
  | update
  | revert
  | heal
deriving DecidableEq, Repr

/-- One queued or historical transfer (`IDownloadItem`).  Fields not used by
any reducer we embed (game record, upload/build descriptions, timestamps of
start) are elided; `gameId` stands for `item.game.id`. -/
structure DownloadItem where
  id : Nat
  gameId : Nat
  rank : Int
  finished : Bool
  progress : Int
  bps : Int
  eta : Int
  finishedAt : Option Int
  err : Option String
  errStack : Option String
  reason : DownloadReason
deriving DecidableEq, Repr

/-- The downloads slice of the store (`IDownloadsState`).  The source keys
`items` by id in an object; we model it as a list whose entries carry their
ids (insertion keeps at most one entry per id, as object keying does). -/
structure DownloadsState where
  items : List DownloadItem
  paused : Bool
  speeds : List Int
  restored : Bool
deriving DecidableEq, Repr

/-- Object lookup `state.items[id]`. -/
def lookupItem (items : List DownloadItem) (id : Nat) : Option DownloadItem :=
  items.find? (fun i => i.id == id)

/-- The reducer helper `updateSingle`: merge an update into the keyed entry,
ignoring ids we know nothing about (reducers/downloads.ts lines 40-63).  The
partial-record merge is represented by the update function `f`. -/
def updateSingle (state : DownloadsState) (id : Nat) (f : DownloadItem → DownloadItem) :
    DownloadsState :=
  match lookupItem state.items id with
  | none => state
  | some _ =>
    { state with items := state.items.map (fun i => if i.id == id then f i else i) }

/-- Fold computing the minimum rank, seeded with a first rank (underscore
`min(values(state.items), x => x.rank)`). -/
def minRankFrom (r : Int) (items : List DownloadItem) : Int :=
  items.foldl (fun m j => min m j.rank) r

/-- Fold computing the maximum rank, seeded with a first rank. -/
def maxRankFrom (r : Int) (items : List DownloadItem) : Int :=
  items.foldl (fun m j => max m j.rank) r

/-- Higher priority = smaller numbers (reducers/downloads.ts lines 69-75):
one less than the minimum rank, 0 on an empty item set. -/
def higherPriorityRank (state : DownloadsState) : Int :=
  match state.items with
  | [] => 0
  | i :: rest => minRankFrom i.rank rest - 1

/-- Lower priority = larger numbers (reducers/downloads.ts lines 77-83):
one more than the maximum rank, 0 on an empty item set. -/
def lowerPriorityRank (state : DownloadsState) : Int :=
  match state.items with
  | [] => 0
  | i :: rest => maxRankFrom i.rank rest + 1

/-- Modelled from the spec: `excludeGame` (src/reactors/downloads/getters.ts
is not among the provided sources).  The spec says enqueueing "supersedes any
other pending items for the same game ... pruning older items for that game
id before insert"; so `excludeGame` keeps the items of all other games. -/
def excludeGame (state : DownloadsState) (gameId : Nat) : List DownloadItem :=
  state.items.filter (fun i => !(i.gameId == gameId))

/-- Actions handled by the downloads reducer. -/
inductive DAction where
  | clearGameDownloads (gameId : Nat)
  | downloadStarted (item : DownloadItem)
  | retryDownload (id : Nat)
  | downloadProgress (id : Nat) (progress bps eta : Int)
  | downloadEnded (id : Nat) (finishedAt : Option Int) (err errStack : Option String)
  | downloadSpeedDatapoint (bps : Int)
  | prioritizeDownload (id : Nat)
  | downloadDiscarded (id : Nat)
  | pauseDownloads
  | resumeDownloads
  | downloadsRestored
deriving DecidableEq, Repr

/-- Number of speed data points kept (reducers/downloads.ts line 22). -/
def SPEED_DATA_POINT_COUNT : Nat := 60

/-- The downloads reducer (reducers/downloads.ts lines 85-199), one case per
`on(actions...)` registration.

On `retryDownload` of an unknown id the source handler exits early (`return;`
with the comment "can't retry item we don't know about"); the reducer
framework file is not among the provided sources, so—following that comment
and the spec—an early exit is modelled as keeping the state unchanged. -/
def downloadsReducer (state : DownloadsState) : DAction → DownloadsState
  | .clearGameDownloads gameId =>
    { state with items := excludeGame state gameId }
  | .downloadStarted item =>
    let rank := higherPriorityRank state
    { state with
      items := (excludeGame state item.gameId).filter (fun i => !(i.id == item.id))
        ++ [{ item with rank := rank }] }
  | .retryDownload id =>
    match lookupItem state.items id with
    | none => state
    | some _ =>
      updateSingle state id
        (fun i => { i with rank := lowerPriorityRank state, finished := false })
  | .downloadProgress id progress bps eta =>
    updateSingle state id (fun i => { i with progress := progress, bps := bps, eta := eta })
  | .downloadEnded id finishedAt err errStack =>
    updateSingle state id
      (fun i => { i with
        finished := true, finishedAt := finishedAt,
        progress := 0, eta := 0, bps := 0, err := err, errStack := errStack })
  | .downloadSpeedDatapoint bps =>
    { state with
      speeds := (state.speeds ++ [bps]).drop
        ((state.speeds ++ [bps]).length - SPEED_DATA_POINT_COUNT) }
  | .prioritizeDownload id =>
    updateSingle state id (fun i => { i with rank := higherPriorityRank state })
  | .downloadDiscarded id =>
    match lookupItem state.items id with
    | none => state
    | some _ =>
      { state with items := state.items.filter (fun i => !(i.id == id)) }
  | .pauseDownloads =>
    { state with paused := true }
  | .resumeDownloads =>
    { state with items := state.items.map (fun i => { i with bps := 0 }), paused := false }
  | .downloadsRestored =>
    { state with restored := true }

/-- Initial downloads state (reducers/downloads.ts lines 29-38). -/
def initialState : DownloadsState :=
  { items := [], paused := true, speeds := List.replicate SPEED_DATA_POINT_COUNT 0,
    restored := false }

end Itch

namespace Itch

theorem minRankFrom_le_seed (r : Int) (items : List DownloadItem) :
    minRankFrom r items ≤ r := by
  induction items generalizing r with
  | nil => simp [minRankFrom]
  | cons j rest ih =>
    have h := ih (min r j.rank)
    calc minRankFrom r (j :: rest) = minRankFrom (min r j.rank) rest := rfl
      _ ≤ min r j.rank := h
      _ ≤ r := min_le_left _ _

theorem minRankFrom_le_mem (r : Int) (items : List DownloadItem) :
    ∀ j ∈ items, minRankFrom r items ≤ j.rank := by
  induction items generalizing r with
  | nil => intro j hj; simp at hj
  | cons a rest ih =>
    intro j hj
    rcases List.mem_cons.mp hj with h | h
    · subst h
      have h1 := minRankFrom_le_seed (min r j.rank) rest
      calc minRankFrom r (j :: rest) = minRankFrom (min r j.rank) rest := rfl
        _ ≤ min r j.rank := h1
        _ ≤ j.rank := min_le_right _ _
    · exact ih (min r a.rank) j h

theorem seed_le_maxRankFrom (r : Int) (items : List DownloadItem) :
    r ≤ maxRankFrom r items := by
  induction items generalizing r with
  | nil => simp [maxRankFrom]
  | cons j rest ih =>
    have h := ih (max r j.rank)
    calc r ≤ max r j.rank := le_max_left _ _
      _ ≤ maxRankFrom (max r j.rank) rest := h
      _ = maxRankFrom r (j :: rest) := rfl

theorem mem_le_maxRankFrom (r : Int) (items : List DownloadItem) :
    ∀ j ∈ items, j.rank ≤ maxRankFrom r items := by
  induction items generalizing r with
  | nil => intro j hj; simp at hj
  | cons a rest ih =>
    intro j hj
    rcases List.mem_cons.mp hj with h | h
    · subst h
      have h1 := seed_le_maxRankFrom (max r j.rank) rest
      calc j.rank ≤ max r j.rank := le_max_right _ _
        _ ≤ maxRankFrom (max r j.rank) rest := h1
        _ = maxRankFrom r (j :: rest) := rfl
    · exact ih (max r a.rank) j h

/-- The new rank handed out by `prioritizeDownload` is strictly below every
rank present in the state at call time. -/
theorem higherPriorityRank_lt (state : DownloadsState) :
    ∀ j ∈ state.items, higherPriorityRank state < j.rank := by
  intro j hj
  cases hitems : state.items with
  | nil => rw [hitems] at hj; simp at hj
  | cons a rest =>
    have hval : higherPriorityRank state = minRankFrom a.rank rest - 1 := by
      unfold higherPriorityRank
      rw [hitems]
    rw [hval]
    rw [hitems] at hj
    rcases List.mem_cons.mp hj with h | h
    · subst h
      have := minRankFrom_le_seed j.rank rest
      omega
    · have := minRankFrom_le_mem a.rank rest j h
      omega

/-- The new rank handed out by `retryDownload` is strictly above every rank
present in the state at call time. -/
theorem lt_lowerPriorityRank (state : DownloadsState) :
    ∀ j ∈ state.items, j.rank < lowerPriorityRank state := by
  intro j hj
  cases hitems : state.items with
  | nil => rw [hitems] at hj; simp at hj
  | cons a rest =>
    have hval : lowerPriorityRank state = maxRankFrom a.rank rest + 1 := by
      unfold lowerPriorityRank
      rw [hitems]
    rw [hval]
    rw [hitems] at hj
    rcases List.mem_cons.mp hj with h | h
    · subst h
      have := seed_le_maxRankFrom j.rank rest
      omega
    · have := mem_le_maxRankFrom a.rank rest j h
      omega

/-- C2: for every downloads state containing the item with the given id,
`prioritize(id)` assigns that item a rank strictly less than the rank of
every other item at call time, and `deprioritize/retry(id)` assigns it a
rank strictly greater than the rank of every other item at call time, with
`retry` additionally clearing the item's `finished` flag. -/
theorem c2_rank_ordering_laws (s : DownloadsState) (id : Nat)
    (h : (lookupItem s.items id).isSome = true) :
    (∀ i ∈ (downloadsReducer s (.prioritizeDownload id)).items, i.id = id →
       ∀ j ∈ s.items, j.id ≠ id → i.rank < j.rank)
  ∧ (∀ i ∈ (downloadsReducer s (.retryDownload id)).items, i.id = id →
       i.finished = false ∧ ∀ j ∈ s.items, j.id ≠ id → j.rank < i.rank) := by
  rcases Option.isSome_iff_exists.mp h with ⟨it, hit⟩
  constructor
  · intro i hi hiid j hj hjid
    have hred : downloadsReducer s (.prioritizeDownload id)
        = updateSingle s id (fun i => { i with rank := higherPriorityRank s }) := rfl
    rw [hred] at hi
    unfold updateSingle at hi
    rw [hit] at hi
    simp only [List.mem_map] at hi
    rcases hi with ⟨a, _ha, heq⟩
    by_cases hcase : a.id == id
    · simp [hcase] at heq
      subst heq
      exact higherPriorityRank_lt s j hj
    · simp [hcase] at heq
      subst heq
      simp at hcase
      exact absurd hiid hcase
  · intro i hi hiid
    have hred : downloadsReducer s (.retryDownload id)
        = match lookupItem s.items id with
          | none => s
          | some _ => updateSingle s id
              (fun i => { i with rank := lowerPriorityRank s, finished := false }) := rfl
    rw [hred, hit] at hi
    unfold updateSingle at hi
    rw [hit] at hi
    simp only [List.mem_map] at hi
    rcases hi with ⟨a, _ha, heq⟩
    by_cases hcase : a.id == id
    · simp [hcase] at heq
      subst heq
      exact ⟨rfl, fun j hj _hjid => lt_lowerPriorityRank s j hj⟩
    · simp [hcase] at heq
      subst heq
      simp at hcase
      exact absurd hiid hcase

end Itch

namespace Itch

/-- Convenience constructor for sample items used in witnesses. -/
def sampleItem (id gameId : Nat) (rank : Int) (finished : Bool) : DownloadItem :=
  { id := id, gameId := gameId, rank := rank, finished := finished, progress := 0,
    bps := 0, eta := 0, finishedAt := none, err := none, errStack := none,
    reason := .install }

/-- Sample downloads state with two items, used to instantiate theorems. -/
def c2SampleState : DownloadsState :=
  { items := [sampleItem 1 10 0 false, sampleItem 2 20 5 true], paused := false,
    speeds := [], restored := false }

/-- Witness for C2 at a concrete two-item state and id 1. -/
theorem c2_rank_ordering_laws_witness :
    (lookupItem c2SampleState.items 1).isSome = true
  ∧ ((∀ i ∈ (downloadsReducer c2SampleState (.prioritizeDownload 1)).items, i.id = 1 →
        ∀ j ∈ c2SampleState.items, j.id ≠ 1 → i.rank < j.rank)
    ∧ (∀ i ∈ (downloadsReducer c2SampleState (.retryDownload 1)).items, i.id = 1 →
        i.finished = false ∧ ∀ j ∈ c2SampleState.items, j.id ≠ 1 → j.rank < i.rank)) :=
  ⟨by decide, c2_rank_ordering_laws c2SampleState 1 (by decide)⟩

/-- One live download handle of the watcher.  The source handle carries the
item and a `Context`; the context's only observable effect in this model is
whether `graceful-cancel` has been emitted on it, recorded in `cancelled`. -/
structure DownloadHandle where
  itemId : Nat
  cancelled : Bool
deriving DecidableEq, Repr

/-- The watcher's persistent state (download-watcher-persistent-state):
`current` (kept by item id), the `handles` map keyed by item id, and the
`discarded` marks. -/
structure WatcherState where
  currentId : Option Nat
  handles : List DownloadHandle
  discarded : List Nat
deriving DecidableEq, Repr

/-- Initial watcher state: no current handle, empty maps. -/
def initWatcher : WatcherState :=
  { currentId := none, handles := [], discarded := [] }

/-- The whole system state: downloads store slice plus watcher state. -/
def SysState := DownloadsState × WatcherState

/-- Modelled from the spec: `getActiveDownload`
(src/reactors/downloads/getters.ts is not among the provided sources).  The
spec says "selection picks the non-finished item with the numerically
smallest rank"; ties go to the first such item, matching a stable sort by
rank followed by `first`. -/
def pickBetter (acc : Option DownloadItem) (i : DownloadItem) : Option DownloadItem :=
  match acc with
  | none => some i
  | some m => if i.rank < m.rank then some i else some m

/-- Fold of `pickBetter` over the pending (non-finished) items, selecting the
first pending item of smallest rank. -/
def getActiveDownload (state : DownloadsState) : Option DownloadItem :=
  (state.items.filter (fun i => !i.finished)).foldl pickBetter none

/-- `cancelCurrent` (download-watcher.ts lines 72-85): emit `graceful-cancel`
on the current handle's context (recorded by setting its `cancelled` flag in
the handles map, when the map still holds it) and null out `current`. -/
def cancelCurrent (w : WatcherState) : WatcherState :=
  match w.currentId with
  | none => w
  | some id =>
    { w with
      currentId := none,
      handles := w.handles.map
        (fun h => if h.itemId == id then { h with cancelled := true } else h) }

/-- The synchronous head of `start` (download-watcher.ts lines 87-95):
cancel the previous current handle, then install a fresh handle for the item
as both `current` and the `handles[item.id]` entry (object keying overwrites
any previous entry for that id). -/
def startDownload (w : WatcherState) (id : Nat) : WatcherState :=
  let w1 := cancelCurrent w
  { w1 with
    currentId := some id,
    handles := w1.handles.filter (fun h => !(h.itemId == id)) ++ [⟨id, false⟩] }

/-- The tick handler `updateDownloadState` (download-watcher.ts lines 24-60),
minus the window progress-bar side effect: when paused, cancel any current
download; otherwise start the active download if it differs from the current
one, and cancel the current one when no active download exists. -/
def tickWatcher (s : SysState) : SysState :=
  if s.1.paused then
    (s.1, cancelCurrent s.2)
  else
    match getActiveDownload s.1 with
    | some a =>
      if s.2.currentId = some a.id then s else (s.1, startDownload s.2 a.id)
    | none => (s.1, cancelCurrent s.2)

/-- Outcome of one run of `performDownload` for an item, as classified by the
watcher's `finally` block via `isCancelled` / `isAborted`. -/
inductive WorkOutcome where
  | success
  | failure (msg stack : String)
  | cancelled
  | aborted
deriving DecidableEq, Repr

/-- Store actions dispatched by the `finally` block of `start`
(download-watcher.ts lines 116-158) when the work for `id` settles with the
given outcome: cancellation dispatches nothing (whether or not the item was
marked discarded — `downloadDiscarded` was already dispatched by the discard
handler in that case), abort dispatches `downloadDiscarded`, and success or
genuine failure dispatch `downloadEnded` (the watcher passes no
`finishedAt`). -/
def settleActions (id : Nat) (outcome : WorkOutcome) : List DAction :=
  match outcome with
  | .cancelled => []
  | .aborted => [.downloadDiscarded id]
  | .success => [.downloadEnded id none none none]
  | .failure msg stack => [.downloadEnded id none (some msg) (some stack)]

/-- The `finally` block of `start` as a state transition: drop the handle
entry, clear the discarded mark on the cancellation/abort cleanup path, and
apply the dispatched actions to the downloads state.  (`current` is not
cleared by the source's `finally`; the filesystem cleanup of
`cleanupDiscarded` has no store effect and is elided.) -/
def dropHandle (w : WatcherState) (id : Nat) : WatcherState :=
  { w with handles := w.handles.filter (fun h => !(h.itemId == id)) }

/-- See `dropHandle` and `settleActions`: the watcher part of the `finally`
block, after the handle entry for `id` has been deleted. -/
def settleWatcher (w : WatcherState) (id : Nat) (outcome : WorkOutcome) : WatcherState :=
  match outcome with
  | .cancelled =>
    if (dropHandle w id).discarded.contains id then
      { dropHandle w id with
        discarded := (dropHandle w id).discarded.filter (fun x => !(x == id)) }
    else dropHandle w id
  | .aborted =>
    { dropHandle w id with
      discarded := (dropHandle w id).discarded.filter (fun x => !(x == id)) }
  | _ => dropHandle w id

def settleDownload (s : SysState) (id : Nat) (outcome : WorkOutcome) : SysState :=
  ((settleActions id outcome).foldl downloadsReducer s.1, settleWatcher s.2 id outcome)

/-- The `discardDownload` watcher handler (download-watcher.ts lines
170-187): unknown ids do nothing; otherwise mark the id discarded when a
handle is live for it (or clean up right away, a pure filesystem effect),
then dispatch `downloadDiscarded`. -/
def discardDownloadHandler (s : SysState) (id : Nat) : SysState :=
  match lookupItem s.1.items id with
  | none => s
  | some _ =>
    (downloadsReducer s.1 (.downloadDiscarded id),
     if s.2.handles.any (fun h => h.itemId == id) then
       { s.2 with discarded := id :: s.2.discarded }
     else s.2)

/-- System-level operations: plain store dispatches (enqueue, pause, resume,
retry, prioritize, ...), the discard handler, the periodic tick, and the
settling of a running download's work. -/
inductive SysOp where
  | dispatch (a : DAction)
  | discard (id : Nat)
  | tick
  | settle (id : Nat) (outcome : WorkOutcome)
deriving DecidableEq, Repr

/-- Apply one system operation. -/
def applyOp (s : SysState) : SysOp → SysState
  | .dispatch a => (downloadsReducer s.1 a, s.2)
  | .discard id => discardDownloadHandler s id
  | .tick => tickWatcher s
  | .settle id outcome => settleDownload s id outcome

/-- The system state reached from boot by a sequence of operations. -/
def runOps (ops : List SysOp) : SysState :=
  ops.foldl applyOp (initialState, initWatcher)

/-- Handles on which `graceful-cancel` has not been emitted. -/
def liveHandles (w : WatcherState) : List DownloadHandle :=
  w.handles.filter (fun h => !h.cancelled)

/-- The watcher invariant: handle keys are unique (it is an object keyed by
item id) and every live handle is the current one. -/
def WatcherInv (w : WatcherState) : Prop :=
  (w.handles.map DownloadHandle.itemId).Nodup
  ∧ ∀ h ∈ w.handles, h.cancelled = false → w.currentId = some h.itemId

end Itch

namespace Itch

theorem pickBetter_isSome (acc : Option DownloadItem) (i : DownloadItem) :
    (pickBetter acc i).isSome = true := by
  cases acc with
  | none => rfl
  | some m =>
    unfold pickBetter
    dsimp only
    split <;> rfl

theorem foldl_pickBetter_isSome (l : List DownloadItem) :
    ∀ acc : Option DownloadItem, acc.isSome = true →
      (l.foldl pickBetter acc).isSome = true := by
  induction l with
  | nil => intro acc h; exact h
  | cons i t ih => intro acc _; exact ih (pickBetter acc i) (pickBetter_isSome acc i)

theorem foldl_pickBetter_mem (l : List DownloadItem) :
    ∀ acc m, l.foldl pickBetter acc = some m → m ∈ l ∨ acc = some m := by
  induction l with
  | nil => intro acc m h; exact Or.inr h
  | cons i t ih =>
    intro acc m h
    rcases ih (pickBetter acc i) m h with h1 | h1
    · exact Or.inl (List.mem_cons_of_mem _ h1)
    · cases acc with
      | none =>
        have : i = m := by
          have h2 : some i = some m := h1
          exact Option.some.inj h2
        exact Or.inl (this ▸ List.mem_cons_self _ _)
      | some a =>
        unfold pickBetter at h1
        dsimp only at h1
        by_cases hlt : i.rank < a.rank
        · rw [if_pos hlt] at h1
          exact Or.inl ((Option.some.inj h1) ▸ List.mem_cons_self _ _)
        · rw [if_neg hlt] at h1
          exact Or.inr h1

theorem foldl_pickBetter_min (l : List DownloadItem) :
    ∀ acc m, l.foldl pickBetter acc = some m →
      (∀ j ∈ l, m.rank ≤ j.rank) ∧ (∀ a, acc = some a → m.rank ≤ a.rank) := by
  induction l with
  | nil =>
    intro acc m h
    refine ⟨by intro j hj; simp at hj, ?_⟩
    intro a ha
    rw [ha] at h
    rw [Option.some.inj h]
  | cons i t ih =>
    intro acc m h
    obtain ⟨ht, hacc⟩ := ih (pickBetter acc i) m h
    have hmi : m.rank ≤ i.rank := by
      cases acc with
      | none => exact hacc i rfl
      | some a =>
        by_cases hlt : i.rank < a.rank
        · have : pickBetter (some a) i = some i := by unfold pickBetter; dsimp only; rw [if_pos hlt]
          exact hacc i this
        · have : pickBetter (some a) i = some a := by unfold pickBetter; dsimp only; rw [if_neg hlt]
          exact le_trans (hacc a this) (le_of_not_lt hlt)
    refine ⟨?_, ?_⟩
    · intro j hj
      rcases List.mem_cons.mp hj with h1 | h1
      · exact h1 ▸ hmi
      · exact ht j h1
    · intro a ha
      subst ha
      by_cases hlt : i.rank < a.rank
      · exact le_trans hmi (le_of_lt hlt)
      · have : pickBetter (some a) i = some a := by unfold pickBetter; dsimp only; rw [if_neg hlt]
        exact hacc a this

/-- Item selected by `getActiveDownload` is a pending item of minimal rank. -/
theorem getActiveDownload_spec (d : DownloadsState) (a : DownloadItem)
    (h : getActiveDownload d = some a) :
    a ∈ d.items ∧ a.finished = false
    ∧ ∀ j ∈ d.items, j.finished = false → a.rank ≤ j.rank := by
  unfold getActiveDownload at h
  have hmem := foldl_pickBetter_mem _ none a h
  have hfil : a ∈ d.items.filter (fun i => !i.finished) := by
    rcases hmem with h1 | h1
    · exact h1
    · exact absurd h1 (by simp)
  have hfil2 := List.mem_filter.mp hfil
  have hmin := (foldl_pickBetter_min _ none a h).1
  refine ⟨hfil2.1, by simpa using hfil2.2, ?_⟩
  intro j hj hjf
  exact hmin j (List.mem_filter.mpr ⟨hj, by simp [hjf]⟩)

/-- When a pending item exists, `getActiveDownload` selects one. -/
theorem getActiveDownload_isSome (d : DownloadsState)
    (h : ∃ i ∈ d.items, i.finished = false) : (getActiveDownload d).isSome = true := by
  obtain ⟨i, hi, hif⟩ := h
  have hfil : i ∈ d.items.filter (fun i => !i.finished) :=
    List.mem_filter.mpr ⟨hi, by simp [hif]⟩
  unfold getActiveDownload
  cases hl : d.items.filter (fun i => !i.finished) with
  | nil => rw [hl] at hfil; simp at hfil
  | cons b t =>
    show ((b :: t).foldl pickBetter none).isSome = true
    exact foldl_pickBetter_isSome t (pickBetter none b) (pickBetter_isSome none b)

end Itch

namespace Itch

theorem keys_map_mark (hs : List DownloadHandle) (id : Nat) :
    (hs.map (fun h => if h.itemId == id then { h with cancelled := true } else h)).map
        DownloadHandle.itemId
      = hs.map DownloadHandle.itemId := by
  induction hs with
  | nil => rfl
  | cons a t ih =>
    dsimp only [List.map]
    rw [ih]
    congr 1
    by_cases h : a.itemId == id
    · rw [if_pos h]
    · rw [if_neg h]

theorem cancelCurrent_none (w : WatcherState) (h : w.currentId = none) :
    cancelCurrent w = w := by
  unfold cancelCurrent
  rw [h]

theorem cancelCurrent_some (w : WatcherState) (id : Nat) (h : w.currentId = some id) :
    cancelCurrent w
      = { w with
          currentId := none,
          handles := w.handles.map
            (fun g => if g.itemId == id then { g with cancelled := true } else g) } := by
  unfold cancelCurrent
  rw [h]

theorem cancelCurrent_keys (w : WatcherState) :
    (cancelCurrent w).handles.map DownloadHandle.itemId
      = w.handles.map DownloadHandle.itemId := by
  cases hcur : w.currentId with
  | none => rw [cancelCurrent_none w hcur]
  | some id =>
    rw [cancelCurrent_some w id hcur]
    exact keys_map_mark w.handles id

theorem cancelCurrent_no_live (w : WatcherState) (hinv : WatcherInv w) :
    ∀ h ∈ (cancelCurrent w).handles, h.cancelled = false → False := by
  intro h hmem hlive
  obtain ⟨_hnd, hmatch⟩ := hinv
  cases hcur : w.currentId with
  | none =>
    rw [cancelCurrent_none w hcur] at hmem
    have hx := hmatch h hmem hlive
    rw [hcur] at hx
    exact Option.noConfusion hx
  | some id =>
    rw [cancelCurrent_some w id hcur] at hmem
    rcases List.mem_map.mp hmem with ⟨g, hg, heq⟩
    by_cases hgid : g.itemId == id
    · rw [if_pos hgid] at heq
      rw [← heq] at hlive
      exact Bool.noConfusion hlive
    · rw [if_neg hgid] at heq
      subst heq
      have hx := hmatch g hg hlive
      rw [hcur] at hx
      have hid : g.itemId = id := (Option.some.inj hx).symm
      simp [hid] at hgid

theorem inv_cancelCurrent (w : WatcherState) (hinv : WatcherInv w) :
    WatcherInv (cancelCurrent w) := by
  refine ⟨?_, ?_⟩
  · rw [cancelCurrent_keys]
    exact hinv.1
  · intro h hm hl
    exact (cancelCurrent_no_live w hinv h hm hl).elim

theorem inv_startDownload (w : WatcherState) (id : Nat) (hinv : WatcherInv w) :
    WatcherInv (startDownload w id) := by
  have hinv1 := inv_cancelCurrent w hinv
  have hh : (startDownload w id).handles
      = (cancelCurrent w).handles.filter (fun h => !(h.itemId == id))
        ++ [⟨id, false⟩] := rfl
  have hc : (startDownload w id).currentId = some id := rfl
  refine ⟨?_, ?_⟩
  · rw [hh, List.map_append, List.nodup_append]
    refine ⟨?_, by simp, ?_⟩
    · exact List.Nodup.sublist ((List.filter_sublist _).map _) hinv1.1
    · intro x hx hy
      have hxid : x = id := by simpa using hy
      rcases List.mem_map.mp hx with ⟨g, hg, hgx⟩
      have hgfil := List.mem_filter.mp hg
      have : (g.itemId == id) = false := by
        cases hb : (g.itemId == id) with
        | false => rfl
        | true => rw [hb] at hgfil; exact absurd hgfil.2 (by simp)
      rw [hgx] at this
      rw [hxid] at this
      simp at this
  · intro h hm hl
    rw [hh] at hm
    rcases List.mem_append.mp hm with hm1 | hm1
    · have hg := (List.mem_filter.mp hm1).1
      exact (cancelCurrent_no_live w hinv h hg hl).elim
    · have hx : h = ⟨id, false⟩ := by simpa using hm1
      rw [hc, hx]

theorem settle_handles (w : WatcherState) (id : Nat) (outcome : WorkOutcome) :
    (settleWatcher w id outcome).handles
      = w.handles.filter (fun h => !(h.itemId == id)) := by
  cases outcome with
  | success => rfl
  | failure msg stack => rfl
  | aborted => rfl
  | cancelled =>
    unfold settleWatcher
    split <;> first
      | rfl
      | (split <;> rfl)

theorem settle_currentId (w : WatcherState) (id : Nat) (outcome : WorkOutcome) :
    (settleWatcher w id outcome).currentId = w.currentId := by
  cases outcome with
  | success => rfl
  | failure msg stack => rfl
  | aborted => rfl
  | cancelled =>
    unfold settleWatcher
    split <;> first
      | rfl
      | (split <;> rfl)

theorem inv_settleWatcher (w : WatcherState) (id : Nat) (outcome : WorkOutcome)
    (hinv : WatcherInv w) : WatcherInv (settleWatcher w id outcome) := by
  refine ⟨?_, ?_⟩
  · rw [settle_handles]
    exact List.Nodup.sublist ((List.filter_sublist _).map _) hinv.1
  · intro h hm hl
    rw [settle_handles] at hm
    rw [settle_currentId]
    exact hinv.2 h (List.mem_filter.mp hm).1 hl

theorem discard_handles (s : SysState) (id : Nat) :
    (discardDownloadHandler s id).2.handles = s.2.handles := by
  unfold discardDownloadHandler
  cases h : lookupItem s.1.items id with
  | none => rfl
  | some it =>
    dsimp only
    split <;> rfl

theorem discard_currentId (s : SysState) (id : Nat) :
    (discardDownloadHandler s id).2.currentId = s.2.currentId := by
  unfold discardDownloadHandler
  cases h : lookupItem s.1.items id with
  | none => rfl
  | some it =>
    dsimp only
    split <;> rfl

theorem inv_applyOp (s : SysState) (op : SysOp) (hinv : WatcherInv s.2) :
    WatcherInv (applyOp s op).2 := by
  cases op with
  | dispatch a => exact hinv
  | discard id =>
    show WatcherInv (discardDownloadHandler s id).2
    refine ⟨?_, ?_⟩
    · rw [discard_handles]
      exact hinv.1
    · intro h hm hl
      rw [discard_handles] at hm
      rw [discard_currentId]
      exact hinv.2 h hm hl
  | settle id outcome => exact inv_settleWatcher s.2 id outcome hinv
  | tick =>
    show WatcherInv (tickWatcher s).2
    unfold tickWatcher
    by_cases hp : s.1.paused = true
    · rw [if_pos hp]
      exact inv_cancelCurrent s.2 hinv
    · rw [if_neg hp]
      cases ha : getActiveDownload s.1 with
      | none =>
        show WatcherInv (s.1, cancelCurrent s.2).2
        exact inv_cancelCurrent s.2 hinv
      | some a =>
        show WatcherInv
          (if s.2.currentId = some a.id then s else (s.1, startDownload s.2 a.id)).2
        by_cases hcur : s.2.currentId = some a.id
        · rw [if_pos hcur]
          exact hinv
        · rw [if_neg hcur]
          exact inv_startDownload s.2 a.id hinv

theorem inv_foldl (ops : List SysOp) :
    ∀ s : SysState, WatcherInv s.2 → WatcherInv (ops.foldl applyOp s).2 := by
  induction ops with
  | nil => intro s h; exact h
  | cons op t ih => intro s h; exact ih (applyOp s op) (inv_applyOp s op h)

theorem inv_runOps (ops : List SysOp) : WatcherInv (runOps ops).2 := by
  unfold runOps
  apply inv_foldl
  refine ⟨by simp [initWatcher], ?_⟩
  intro h hm
  simp [initWatcher] at hm

theorem live_le_one (w : WatcherState) (hinv : WatcherInv w) :
    (liveHandles w).length ≤ 1 := by
  have hsub : (liveHandles w).Sublist w.handles := List.filter_sublist _
  have hnd : ((liveHandles w).map DownloadHandle.itemId).Nodup :=
    List.Nodup.sublist (hsub.map _) hinv.1
  cases hl : liveHandles w with
  | nil => simp
  | cons a t =>
    cases t with
    | nil => simp
    | cons b t2 =>
      exfalso
      have ha : a ∈ liveHandles w := by rw [hl]; exact List.mem_cons_self _ _
      have hb : b ∈ liveHandles w := by rw [hl]; simp
      have ha2 := List.mem_filter.mp
        (show a ∈ w.handles.filter (fun h => !h.cancelled) from ha)
      have hb2 := List.mem_filter.mp
        (show b ∈ w.handles.filter (fun h => !h.cancelled) from hb)
      have hca := hinv.2 a ha2.1 (by simpa using ha2.2)
      have hcb := hinv.2 b hb2.1 (by simpa using hb2.2)
      have heq : a.itemId = b.itemId := by
        rw [hca] at hcb
        exact Option.some.inj hcb
      rw [hl] at hnd
      simp [List.nodup_cons] at hnd
      exact hnd.1.1 heq

end Itch

namespace Itch

/-- Right after a tick on an unpaused queue, the watcher's current download
is the selected minimal-rank pending item. -/
theorem tick_sets_current (s : SysState) (a : DownloadItem)
    (hp : s.1.paused = false) (ha : getActiveDownload s.1 = some a) :
    (tickWatcher s).2.currentId = some a.id := by
  unfold tickWatcher
  rw [if_neg (by rw [hp]; exact Bool.false_ne_true)]
  rw [ha]
  show (if s.2.currentId = some a.id then s else (s.1, startDownload s.2 a.id)).2.currentId
    = some a.id
  by_cases hcur : s.2.currentId = some a.id
  · rw [if_pos hcur]
    exact hcur
  · rw [if_neg hcur]
    rfl

/-- C1: over every sequence of enqueue/discard/pause/resume/tick/settle
operations from boot, at most one download handle is live (its
`graceful-cancel` not emitted) and any live handle is the current one — the
tick handler cancels the previous handle before starting a new one, so no
state with two live handles is reachable.  Moreover the active-download
selector yields at most one item (it returns an `Option`); the item it
selects is a non-finished item of minimal rank among the non-finished; it
selects an item whenever a non-finished item exists; and a tick on an
unpaused queue makes that item the watcher's current download. -/
theorem c1_single_active_invariant :
    (∀ ops : List SysOp,
        (liveHandles (runOps ops).2).length ≤ 1
      ∧ ∀ h ∈ (runOps ops).2.handles, h.cancelled = false →
          (runOps ops).2.currentId = some h.itemId)
  ∧ (∀ d : DownloadsState, ∀ a : DownloadItem, getActiveDownload d = some a →
        a ∈ d.items ∧ a.finished = false
        ∧ ∀ j ∈ d.items, j.finished = false → a.rank ≤ j.rank)
  ∧ (∀ d : DownloadsState, d.paused = false →
        (∃ i ∈ d.items, i.finished = false) → (getActiveDownload d).isSome = true)
  ∧ (∀ s : SysState, ∀ a : DownloadItem, s.1.paused = false →
        getActiveDownload s.1 = some a → (tickWatcher s).2.currentId = some a.id) := by
  refine ⟨?_, ?_, ?_, ?_⟩
  · intro ops
    have hinv := inv_runOps ops
    exact ⟨live_le_one _ hinv, hinv.2⟩
  · intro d a h
    exact getActiveDownload_spec d a h
  · intro d _hp h
    exact getActiveDownload_isSome d h
  · intro s a hp ha
    exact tick_sets_current s a hp ha

/-- Sample operation sequence: enqueue an item, resume the queue, tick. -/
def c1SampleOps : List SysOp :=
  [.dispatch (.downloadStarted (sampleItem 1 10 0 false)), .dispatch .resumeDownloads, .tick]

/-- The pending minimal-rank item of `c2SampleState`. -/
def c1ActiveItem : DownloadItem := sampleItem 1 10 0 false

/-- Witness for C1 at a concrete operation sequence and state. -/
theorem c1_single_active_invariant_witness :
    ((liveHandles (runOps c1SampleOps).2).length ≤ 1
      ∧ ∀ h ∈ (runOps c1SampleOps).2.handles, h.cancelled = false →
          (runOps c1SampleOps).2.currentId = some h.itemId)
  ∧ (getActiveDownload c2SampleState = some c1ActiveItem
      ∧ (c1ActiveItem ∈ c2SampleState.items ∧ c1ActiveItem.finished = false
          ∧ ∀ j ∈ c2SampleState.items, j.finished = false → c1ActiveItem.rank ≤ j.rank))
  ∧ (c2SampleState.paused = false ∧ (∃ i ∈ c2SampleState.items, i.finished = false)
      ∧ (getActiveDownload c2SampleState).isSome = true)
  ∧ ((c2SampleState, initWatcher).1.paused = false
      ∧ (tickWatcher (c2SampleState, initWatcher)).2.currentId = some c1ActiveItem.id) := by
  have T := c1_single_active_invariant
  refine ⟨T.1 c1SampleOps,
    ⟨by decide, T.2.1 c2SampleState c1ActiveItem (by decide)⟩,
    ⟨rfl, ⟨c1ActiveItem, by decide, rfl⟩,
      T.2.2.1 c2SampleState rfl ⟨c1ActiveItem, by decide, rfl⟩⟩,
    ⟨rfl, T.2.2.2 (c2SampleState, initWatcher) c1ActiveItem rfl (by decide)⟩⟩

/-- Recognizer for the `downloadEnded` action. -/
def DAction.isDownloadEnded : DAction → Bool
  | .downloadEnded _ _ _ _ => true
  | _ => false

/-- C5: when a download's work settles with a cancellation or abort, the
finally block dispatches no `downloadEnded` (so the item's `err` is never
written and it is never marked finished with a cancellation message): every
item present afterwards is an unchanged item of the previous state, and a
plain cancellation (no discard mark) leaves the downloads state untouched
(item still queued); an abort removes the item via `downloadDiscarded`. -/
theorem c5_cancellation_never_marks_failed (s : SysState) (id : Nat)
    (outcome : WorkOutcome) (hout : outcome = .cancelled ∨ outcome = .aborted) :
    (∀ a ∈ settleActions id outcome, a.isDownloadEnded = false)
  ∧ (∀ i ∈ (settleDownload s id outcome).1.items, i ∈ s.1.items)
  ∧ (outcome = .cancelled → (settleDownload s id outcome).1 = s.1) := by
  rcases hout with h | h <;> subst h
  · refine ⟨?_, ?_, ?_⟩
    · intro a ha
      simp [settleActions] at ha
    · intro i hi
      exact hi
    · intro _
      rfl
  · refine ⟨?_, ?_, ?_⟩
    · intro a ha
      have hx : a = DAction.downloadDiscarded id := by simpa [settleActions] using ha
      rw [hx]
      rfl
    · intro i hi
      have hred : (settleDownload s id .aborted).1
          = match lookupItem s.1.items id with
            | none => s.1
            | some _ => { s.1 with items := s.1.items.filter (fun i => !(i.id == id)) } := rfl
      rw [hred] at hi
      cases hl : lookupItem s.1.items id with
      | none => rw [hl] at hi; exact hi
      | some it =>
        rw [hl] at hi
        exact (List.mem_filter.mp hi).1
    · intro hcontra
      exact WorkOutcome.noConfusion hcontra

/-- Witness for C5 at a concrete state and a cancelled outcome. -/
theorem c5_cancellation_never_marks_failed_witness :
    (WorkOutcome.cancelled = WorkOutcome.cancelled ∨
        WorkOutcome.cancelled = WorkOutcome.aborted)
  ∧ ((∀ a ∈ settleActions 1 WorkOutcome.cancelled, a.isDownloadEnded = false)
    ∧ (∀ i ∈ (settleDownload (c2SampleState, initWatcher) 1 WorkOutcome.cancelled).1.items,
          i ∈ (c2SampleState, initWatcher).1.items)
    ∧ (WorkOutcome.cancelled = WorkOutcome.cancelled →
        (settleDownload (c2SampleState, initWatcher) 1 WorkOutcome.cancelled).1
          = (c2SampleState, initWatcher).1)) :=
  ⟨Or.inl rfl,
    c5_cancellation_never_marks_failed (c2SampleState, initWatcher) 1
      WorkOutcome.cancelled (Or.inl rfl)⟩

/-- C10: operations addressed to an id absent from the items map leave the
downloads state unchanged — `downloadProgress`, `retryDownload`,
`prioritizeDownload` and `downloadDiscarded` are no-ops — and the
`discardDownload` handler changes nothing and dispatches nothing. -/
theorem c10_unknown_id_noop (d : DownloadsState) (w : WatcherState) (id : Nat)
    (progress bps eta : Int) (h : lookupItem d.items id = none) :
    downloadsReducer d (.downloadProgress id progress bps eta) = d
  ∧ downloadsReducer d (.retryDownload id) = d
  ∧ downloadsReducer d (.prioritizeDownload id) = d
  ∧ downloadsReducer d (.downloadDiscarded id) = d
  ∧ discardDownloadHandler (d, w) id = (d, w) := by
  have hupd : ∀ f, updateSingle d id f = d := by
    intro f
    unfold updateSingle
    rw [h]
  refine ⟨hupd _, ?_, hupd _, ?_, ?_⟩
  · show (match lookupItem d.items id with
      | none => d
      | some _ => updateSingle d id
          (fun i => { i with rank := lowerPriorityRank d, finished := false })) = d
    rw [h]
  · show (match lookupItem d.items id with
      | none => d
      | some _ => { d with items := d.items.filter (fun i => !(i.id == id)) }) = d
    rw [h]
  · show (match lookupItem d.items id with
      | none => (d, w)
      | some _ =>
        (downloadsReducer d (.downloadDiscarded id),
         if w.handles.any (fun h => h.itemId == id) then
           { w with discarded := id :: w.discarded }
         else w)) = (d, w)
    rw [h]

/-- Witness for C10 at a concrete state and the unknown id 7. -/
theorem c10_unknown_id_noop_witness :
    lookupItem c2SampleState.items 7 = none
  ∧ (downloadsReducer c2SampleState (.downloadProgress 7 1 2 3) = c2SampleState
    ∧ downloadsReducer c2SampleState (.retryDownload 7) = c2SampleState
    ∧ downloadsReducer c2SampleState (.prioritizeDownload 7) = c2SampleState
    ∧ downloadsReducer c2SampleState (.downloadDiscarded 7) = c2SampleState
    ∧ discardDownloadHandler (c2SampleState, initWatcher) 7
        = (c2SampleState, initWatcher)) :=
  ⟨by decide, c10_unknown_id_noop c2SampleState initWatcher 7 1 2 3 (by decide)⟩

end Itch

namespace Itch

/-- Abstract view of the deploy destination (src/util/deploy.ts):
`destFiles` is the recursive listing of `destPath` (relative paths,
set-membership semantics) and `receiptFiles` the `files` field of
`destPath/.itch/receipt.json` (`none` when the receipt is missing or
unparsable). -/
structure DeployFS where
  destFiles : List String
  receiptFiles : Option (List String)
deriving DecidableEq, Repr

/-- Inputs of one `deploy` call: the staging listing, what the `onSingle`
hook reports when invoked on a one-file staging set (the default
`singlenoop` reports nothing, i.e. `false`), and whether the
staging-to-destination merge (`butler.ditto`) fails. -/
structure DeployOpts where
  stageFiles : List String
  onSingleDeployed : Bool
  mergeFails : Bool
deriving DecidableEq, Repr

/-- Previous file set (deploy.ts lines 79-92): the receipt's files when
readable, else `[]`; when that is empty, fall back to globbing the
destination. -/
def previousFiles (fs : DeployFS) : List String :=
  if (fs.receiptFiles.getD []).isEmpty then fs.destFiles else fs.receiptFiles.getD []

/-- Orphan files (deploy.ts line 96): `difference(destFiles, stageFiles)`. -/
def dinosaurs (stageFiles : List String) (fs : DeployFS) : List String :=
  (previousFiles fs).filter (fun f => !(decide (f ∈ stageFiles)))

/-- Files present after merging staging over the destination
(`butler.ditto`): everything in staging plus the kept destination files. -/
def mergeCopy (destFiles stageFiles : List String) : List String :=
  destFiles.filter (fun f => !(decide (f ∈ stageFiles))) ++ stageFiles

/-- Destination after the orphan wipe (deploy.ts lines 97-107): every
dinosaur is deleted from the destination. -/
def wipeDinosaurs (stageFiles : List String) (fs : DeployFS) : DeployFS :=
  { fs with
    destFiles := fs.destFiles.filter
      (fun f => !(decide (f ∈ dinosaurs stageFiles fs))) }

/-- See `wipeDinosaurs` and `mergeCopy`: the deploy engine (deploy.ts lines
55-123), returning the resulting filesystem and whether the deploy
succeeded.  A failing merge stops the deploy after the orphan wipe, before
the receipt write; the receipt is written only after the merge succeeded. -/
def deploy (opts : DeployOpts) (fs : DeployFS) : DeployFS × Bool :=
  if opts.stageFiles.length = 1 && opts.onSingleDeployed then
    (fs, true)
  else if opts.mergeFails then
    (wipeDinosaurs opts.stageFiles fs, false)
  else
    ({ destFiles := mergeCopy (wipeDinosaurs opts.stageFiles fs).destFiles opts.stageFiles,
       receiptFiles := some opts.stageFiles }, true)

theorem previousFiles_mem (fs : DeployFS) (prev : List String)
    (hrec : fs.receiptFiles = some prev)
    (hacc : ∀ f, f ∈ fs.destFiles ↔ f ∈ prev) :
    ∀ f, f ∈ previousFiles fs ↔ f ∈ prev := by
  intro f
  unfold previousFiles
  rw [hrec]
  by_cases hemp : (prev.isEmpty : Bool) = true
  · cases prev with
    | nil => simp [hacc f]
    | cons a t => simp [List.isEmpty] at hemp
  · cases prev with
    | nil => simp [List.isEmpty] at hemp
    | cons a t => simp

/-- C3: for every prior receipt file set accurately describing the
destination and every staging file set, a successful default-options deploy
leaves the destination containing exactly the staging file set and writes a
receipt listing exactly the staging file set. -/
theorem c3_deploy_orphan_removal (prev stage : List String) (fs : DeployFS)
    (hrec : fs.receiptFiles = some prev)
    (hacc : ∀ f, f ∈ fs.destFiles ↔ f ∈ prev) :
    (deploy ⟨stage, false, false⟩ fs).2 = true
  ∧ (∀ f, f ∈ (deploy ⟨stage, false, false⟩ fs).1.destFiles ↔ f ∈ stage)
  ∧ (deploy ⟨stage, false, false⟩ fs).1.receiptFiles = some stage := by
  have hprev := previousFiles_mem fs prev hrec hacc
  have hdep : deploy ⟨stage, false, false⟩ fs
      = ({ destFiles :=
             mergeCopy
               (fs.destFiles.filter (fun f => !(decide (f ∈ dinosaurs stage fs)))) stage,
           receiptFiles := some stage }, true) := by
    unfold deploy
    rw [if_neg (by simp)]
    rw [if_neg (by simp)]
    rfl
  rw [hdep]
  refine ⟨rfl, ?_, rfl⟩
  intro f
  unfold mergeCopy
  simp only [List.mem_append, List.mem_filter]
  constructor
  · intro hf
    rcases hf with ⟨⟨hd, hnd⟩, hns⟩ | hf
    · exfalso
      have hnotdino : f ∉ dinosaurs stage fs := by simpa using hnd
      have hnotstage : f ∉ stage := by simpa using hns
      apply hnotdino
      unfold dinosaurs
      refine List.mem_filter.mpr ⟨(hprev f).mpr ((hacc f).mp hd), ?_⟩
      simpa using hnotstage
    · exact hf
  · intro hf
    exact Or.inr hf

/-- Witness for C3: destination `{a,b,c}` from a prior receipt, staging
`{b,c,d}`, yielding destination and receipt exactly `{b,c,d}`. -/
theorem c3_deploy_orphan_removal_witness :
    (({ destFiles := ["a", "b", "c"],
        receiptFiles := some ["a", "b", "c"] } : DeployFS).receiptFiles
      = some ["a", "b", "c"])
  ∧ ((deploy ⟨["b", "c", "d"], false, false⟩
        ⟨["a", "b", "c"], some ["a", "b", "c"]⟩).2 = true
    ∧ (∀ f, f ∈ (deploy ⟨["b", "c", "d"], false, false⟩
          ⟨["a", "b", "c"], some ["a", "b", "c"]⟩).1.destFiles ↔ f ∈ ["b", "c", "d"])
    ∧ (deploy ⟨["b", "c", "d"], false, false⟩
          ⟨["a", "b", "c"], some ["a", "b", "c"]⟩).1.receiptFiles
        = some ["b", "c", "d"]) :=
  ⟨rfl,
    c3_deploy_orphan_removal ["a", "b", "c"] ["b", "c", "d"]
      ⟨["a", "b", "c"], some ["a", "b", "c"]⟩ rfl (fun _ => Iff.rfl)⟩

end Itch

namespace Itch

/-- Counterexample for C4 as stated: a one-file staging set whose `onSingle`
hook reports it already deployed makes `deploy` succeed without writing the
receipt, so after this successful deploy the receipt does not equal the
staging file list. -/
theorem c4_counterexample :
    (deploy ⟨["a"], true, false⟩ ⟨["x"], some ["x"]⟩).2 = true
  ∧ (deploy ⟨["a"], true, false⟩ ⟨["x"], some ["x"]⟩).1.receiptFiles = some ["x"]
  ∧ (deploy ⟨["a"], true, false⟩ ⟨["x"], some ["x"]⟩).1.receiptFiles
      ≠ some (["a"] : List String) := by
  refine ⟨rfl, rfl, by decide⟩

/-- C4 (amended): the receipt is written only after the merge succeeded — a
deploy that fails partway leaves the receipt untouched; after every
successful deploy that is not short-circuited by the single-file hook, the
receipt's files equal the staging file list; a short-circuited deploy also
leaves the receipt untouched. -/
theorem c4_receipt_only_after_merge (opts : DeployOpts) (fs : DeployFS) :
    ((deploy opts fs).2 = false → (deploy opts fs).1.receiptFiles = fs.receiptFiles)
  ∧ ((decide (opts.stageFiles.length = 1) && opts.onSingleDeployed) = false →
      (deploy opts fs).2 = true →
      (deploy opts fs).1.receiptFiles = some opts.stageFiles)
  ∧ ((decide (opts.stageFiles.length = 1) && opts.onSingleDeployed) = true →
      (deploy opts fs).1.receiptFiles = fs.receiptFiles) := by
  unfold deploy
  by_cases hsc : (decide (opts.stageFiles.length = 1) && opts.onSingleDeployed) = true
  · rw [if_pos hsc]
    refine ⟨?_, ?_, fun _ => rfl⟩
    · intro hfail
      exact absurd hfail (by simp)
    · intro hns
      rw [hsc] at hns
      exact absurd hns (by simp)
  · rw [if_neg hsc]
    by_cases hmf : opts.mergeFails = true
    · rw [if_pos hmf]
      refine ⟨fun _ => rfl, ?_, ?_⟩
      · intro _ hsucc
        exact absurd hsucc (by simp)
      · intro hyes
        exact absurd hyes hsc
    · rw [if_neg hmf]
      refine ⟨?_, fun _ _ => rfl, ?_⟩
      · intro hfail
        exact absurd hfail (by simp)
      · intro hyes
        exact absurd hyes hsc

/-- Witness for C4 (amended) at a failing merge and at a plain successful
deploy. -/
theorem c4_receipt_only_after_merge_witness :
    ((deploy ⟨["b"], false, true⟩ ⟨["x"], some ["x"]⟩).2 = false →
        (deploy ⟨["b"], false, true⟩ ⟨["x"], some ["x"]⟩).1.receiptFiles
          = some ["x"])
  ∧ ((decide ((["b", "c"] : List String).length = 1) && false) = false →
      (deploy ⟨["b", "c"], false, false⟩ ⟨["x"], some ["x"]⟩).2 = true →
      (deploy ⟨["b", "c"], false, false⟩ ⟨["x"], some ["x"]⟩).1.receiptFiles
        = some ["b", "c"]) :=
  ⟨(c4_receipt_only_after_merge ⟨["b"], false, true⟩ ⟨["x"], some ["x"]⟩).1,
   (c4_receipt_only_after_merge ⟨["b", "c"], false, false⟩ ⟨["x"], some ["x"]⟩).2.1⟩

/-- C7: when the receipt is missing/unparsable or lists no files, the deploy
engine falls back to the destination listing as previous file set — the
computed orphan set is the destination listing minus the staging set — and
the deploy still succeeds. -/
theorem c7_receipt_fallback (stage : List String) (fs : DeployFS)
    (h : fs.receiptFiles = none ∨ fs.receiptFiles = some []) :
    dinosaurs stage fs = fs.destFiles.filter (fun f => !(decide (f ∈ stage)))
  ∧ (deploy ⟨stage, false, false⟩ fs).2 = true := by
  have hprev : previousFiles fs = fs.destFiles := by
    unfold previousFiles
    rcases h with h | h <;> rw [h] <;> simp
  refine ⟨?_, ?_⟩
  · unfold dinosaurs
    rw [hprev]
  · unfold deploy
    rw [if_neg (by simp)]
    rw [if_neg (by simp)]

/-- Witness for C7 at a destination listing `{a,b}` with a missing receipt
and staging `{b}`. -/
theorem c7_receipt_fallback_witness :
    (({ destFiles := ["a", "b"], receiptFiles := none } : DeployFS).receiptFiles = none
      ∨ ({ destFiles := ["a", "b"], receiptFiles := none } : DeployFS).receiptFiles
          = some [])
  ∧ (dinosaurs ["b"] ⟨["a", "b"], none⟩
        = (["a", "b"] : List String).filter (fun f => !(decide (f ∈ (["b"] : List String))))
    ∧ (deploy ⟨["b"], false, false⟩ ⟨["a", "b"], none⟩).2 = true) :=
  ⟨Or.inl rfl, c7_receipt_fallback ["b"] ⟨["a", "b"], none⟩ (Or.inl rfl)⟩

end Itch

namespace Itch

/-- Observable events of one `asTask` run (reactors/tasks/as-task.ts), in
dispatch order.  `handleRemoved` is the deletion of the task's context from
`getCurrentTasks()`, `loggerClosed` the logger cleanup (its possible throw is
caught by the source and does not change the control flow), `onErrorCalled`
the user-supplied error callback invoked with the error message and the
accumulated log text. -/
inductive TaskEvent where
  | taskStarted (id : Nat) (name : String) (gameId : Nat)
  | handleRemoved (id : Nat)
  | loggerClosed
  | onErrorCalled (msg logText : String)
  | taskEnded (id : Nat) (err : Option String)
deriving DecidableEq, Repr

def TaskEvent.isTaskEnded : TaskEvent → Bool
  | .taskEnded _ _ => true
  | _ => false

def TaskEvent.isOnError : TaskEvent → Bool
  | .onErrorCalled _ _ => true
  | _ => false

/-- The stringified error passed to `taskEnded` (as-task.ts line 93,
`err ? ... : null`): non-null whenever the work threw, cancellations and
aborts included. -/
def errString : WorkOutcome → Option String
  | .success => none
  | .failure msg _ => some msg
  | .cancelled => some "Cancelled"
  | .aborted => some "Aborted"

/-- Events before the terminal dispatch: start notification, then cleanup
(handle removal, logger close), then — only for a genuine failure with a
callback supplied — the error callback. -/
def asTaskBody (id : Nat) (name : String) (gameId : Nat) (outcome : WorkOutcome)
    (hasOnError : Bool) (logText : String) : List TaskEvent :=
  [.taskStarted id name gameId, .handleRemoved id, .loggerClosed]
  ++ (match outcome with
      | .failure msg _ => if hasOnError then [.onErrorCalled msg logText] else []
      | _ => [])

/-- The task runner `asTask` (reactors/tasks/as-task.ts lines 32-96) as its
trace of observable events: the work's outcome and the presence of an error
callback are the parameters; the terminal `taskEnded` always comes last. -/
def asTask (id : Nat) (name : String) (gameId : Nat) (outcome : WorkOutcome)
    (hasOnError : Bool) (logText : String) : List TaskEvent :=
  asTaskBody id name gameId outcome hasOnError logText
    ++ [.taskEnded id (errString outcome)]

/-- C8: every `asTask` run dispatches exactly one terminal `taskEnded`, it
comes after task-handle removal and logger cleanup whatever the outcome, and
the error callback runs exactly when the work threw a genuine error (neither
cancellation nor abort) and a callback was supplied. -/
theorem c8_task_ended_exactly_once (id : Nat) (name : String) (gameId : Nat)
    (outcome : WorkOutcome) (hasOnError : Bool) (logText : String) :
    ((asTask id name gameId outcome hasOnError logText).countP
        (fun e => e.isTaskEnded) = 1)
  ∧ (∃ k, asTask id name gameId outcome hasOnError logText
        = k ++ [.taskEnded id (errString outcome)]
      ∧ TaskEvent.handleRemoved id ∈ k ∧ TaskEvent.loggerClosed ∈ k
      ∧ ∀ e ∈ k, e.isTaskEnded = false)
  ∧ ((∃ e ∈ asTask id name gameId outcome hasOnError logText, e.isOnError = true)
      ↔ (hasOnError = true ∧ ∃ msg stack, outcome = .failure msg stack)) := by
  refine ⟨?_,
    ⟨asTaskBody id name gameId outcome hasOnError logText, rfl, ?_, ?_, ?_⟩, ?_⟩
  · cases outcome <;> cases hasOnError <;>
      simp [asTask, asTaskBody, List.countP_append, List.countP_cons,
        TaskEvent.isTaskEnded]
  · simp [asTaskBody]
  · simp [asTaskBody]
  · cases outcome <;> cases hasOnError <;>
      simp [asTaskBody, TaskEvent.isTaskEnded]
  · cases outcome <;> cases hasOnError <;>
      simp [asTask, asTaskBody, TaskEvent.isOnError, errString]

/-- Witness for C8 at a concrete failing run with a callback. -/
theorem c8_task_ended_exactly_once_witness :
    ((asTask 1 "install" 2 (.failure "boom" "stack") true "logtext").countP
        (fun e => e.isTaskEnded) = 1)
  ∧ (∃ k, asTask 1 "install" 2 (.failure "boom" "stack") true "logtext"
        = k ++ [.taskEnded 1 (errString (.failure "boom" "stack"))]
      ∧ TaskEvent.handleRemoved 1 ∈ k ∧ TaskEvent.loggerClosed ∈ k
      ∧ ∀ e ∈ k, e.isTaskEnded = false)
  ∧ ((∃ e ∈ asTask 1 "install" 2 (.failure "boom" "stack") true "logtext",
        e.isOnError = true)
      ↔ (true = true ∧ ∃ msg stack,
          WorkOutcome.failure "boom" "stack" = .failure msg stack)) :=
  c8_task_ended_exactly_once 1 "install" 2 (.failure "boom" "stack") true "logtext"

/-- The cave fields read by the morphing guard of `performLaunch`
(reactors/launch/perform-launch.ts): the `upload` and `build` records are
represented by their ids. -/
structure CaveL where
  id : Nat
  morphing : Bool
  uploadId : Option Nat
  buildId : Option Nat
deriving DecidableEq, Repr

/-- Store effects of a launch request. -/
inductive LaunchEffect where
  | statusMessage (key : String)
  | queueDownload (caveId : Nat) (reason : DownloadReason) (uploadId buildId : Option Nat)
  | launchFlow (caveId : Nat)
deriving DecidableEq, Repr

def LaunchEffect.isLaunchFlow : LaunchEffect → Bool
  | .launchFlow _ => true
  | _ => false

/-- The head of `performLaunch` (perform-launch.ts lines 380-407): a morphing
cave gets a repair status message and a queued "heal" download reusing the
cave's upload and build, and the function returns.  The non-morphing branch
drives the butler launch RPC flow (subprocess I/O, modals, playtime ticks);
that flow is abstracted to the single marker `launchFlow`. -/
def performLaunch (cave : CaveL) : List LaunchEffect :=
  if cave.morphing then
    [.statusMessage "status.repairing_game",
     .queueDownload cave.id .heal cave.uploadId cave.buildId]
  else
    [.launchFlow cave.id]

/-- C9: a cave with `morphing = true` is never launched — the launch request
produces only the repair status message and a queued "heal" download for the
cave's upload and build, and never reaches the launch flow. -/
theorem c9_morphing_never_launched (cave : CaveL) (h : cave.morphing = true) :
    performLaunch cave
      = [.statusMessage "status.repairing_game",
         .queueDownload cave.id .heal cave.uploadId cave.buildId]
  ∧ ∀ e ∈ performLaunch cave, e.isLaunchFlow = false := by
  unfold performLaunch
  rw [if_pos h]
  refine ⟨rfl, ?_⟩
  intro e he
  rcases List.mem_cons.mp he with h1 | h1
  · rw [h1]
    rfl
  · have h2 : e = LaunchEffect.queueDownload cave.id .heal cave.uploadId cave.buildId := by
      simpa using h1
    rw [h2]
    rfl

/-- Witness for C9 at a concrete morphing cave. -/
theorem c9_morphing_never_launched_witness :
    (CaveL.mk 4 true (some 2) (some 3)).morphing = true
  ∧ (performLaunch (CaveL.mk 4 true (some 2) (some 3))
      = [.statusMessage "status.repairing_game",
         .queueDownload 4 .heal (some 2) (some 3)]
    ∧ ∀ e ∈ performLaunch (CaveL.mk 4 true (some 2) (some 3)),
        e.isLaunchFlow = false) :=
  ⟨rfl, c9_morphing_never_launched (CaveL.mk 4 true (some 2) (some 3)) rfl⟩

end Itch

namespace Itch

/-- Upload record fields read by the update checker (reactors/updater.ts):
identity, the wharf build id when build-tracked, and the update timestamp. -/
structure UploadR where
  id : Nat
  buildId : Option Nat
  updatedAt : Int
deriving DecidableEq, Repr

/-- Cave record fields read by the update checker. -/
structure CaveR where
  id : Nat
  installedById : Option Nat
  launchable : Bool
  gameId : Option Nat
  uploadId : Option Nat
  buildId : Option Nat
  installedAt : Option Int
deriving DecidableEq, Repr

/-- Payload of a dispatched `gameUpdateAvailable` action: which uploads were
surfaced, whether the update is an incremental patch, and the patch path of
build ids when one was computed. -/
structure GameUpdate where
  caveId : Nat
  recentUploads : List UploadR
  incremental : Bool
  upgradePath : Option (List Nat)
deriving DecidableEq, Repr

/-- Environment of one `_doCheckForGameUpdate` call: the signed-in user, the
outcomes of the `fetch.gameLazily`, `findUpload` and `findUpgradePath`
round-trips, and whether a launch task is running for the game. -/
structure CheckEnv where
  meId : Option Nat
  fetchOk : Bool
  gameVisible : Bool
  gameRunning : Bool
  findUploadOk : Bool
  uploads : List UploadR
  upgradePathOk : Bool
  upgradePath : List Nat
deriving DecidableEq, Repr

/-- Result of one check: the returned `hasUpgrade`, whether an `err` was
returned, and the dispatched `gameUpdateAvailable` payloads (log lines and
noisy status messages are elided). -/
structure CheckResult where
  hasUpgrade : Bool
  errSet : Bool
  updates : List GameUpdate
deriving DecidableEq, Repr

/-- JavaScript truthiness of an optional numeric field (`if (x)`). -/
def truthyN : Option Nat → Bool
  | some n => n != 0
  | none => false

/-- `findWhere(uploads, justId)` for the cave's tracked upload. -/
def findWhereUpload (uploads : List UploadR) (uid : Nat) : Option UploadR :=
  uploads.find? (fun u => u.id == uid)

/-- Uploads updated strictly after the cave's install time (updater.ts lines
129-145; a missing install timestamp counts as 0). -/
def recentUploads (cave : CaveR) (uploads : List UploadR) : List UploadR :=
  uploads.filter (fun u => cave.installedAt.getD 0 < u.updatedAt)

/-- The wharf branch (updater.ts lines 149-196): when the cave tracks an
upload and a build id, compare the matching upload's build id with the
cave's.  `none` means the branch fell through to the recent-uploads logic
(upload disappeared or lost its build id); `some r` is an early return:
a differing build id computes a patch path and dispatches an incremental
update (a failing `findUpgradePath` returns an error), an equal build id
returns no upgrade. -/
def wharfCheck (cave : CaveR) (env : CheckEnv) : Option CheckResult :=
  if truthyN cave.uploadId && truthyN cave.buildId then
    match findWhereUpload env.uploads (cave.uploadId.getD 0) with
    | none => none
    | some upload =>
      if !(truthyN upload.buildId) then none
      else if upload.buildId != cave.buildId then
        if env.upgradePathOk then
          some { hasUpgrade := true, errSet := false,
                 updates := [{ caveId := cave.id, recentUploads := [upload],
                               incremental := true,
                               upgradePath := some env.upgradePath }] }
        else some { hasUpgrade := false, errSet := true, updates := [] }
      else some { hasUpgrade := false, errSet := false, updates := [] }
  else none

/-- The recent-uploads logic (updater.ts lines 198-244): no recent upload
means no update; several recent uploads are surfaced together for manual
selection; a single recent upload is surfaced when it is a different upload
or a transition to wharf. -/
def recentCheck (cave : CaveR) (env : CheckEnv) : CheckResult :=
  if (recentUploads cave env.uploads).length = 0 then
    { hasUpgrade := false, errSet := false, updates := [] }
  else if 1 < (recentUploads cave env.uploads).length then
    { hasUpgrade := true, errSet := false,
      updates := [{ caveId := cave.id,
                    recentUploads := recentUploads cave env.uploads,
                    incremental := false, upgradePath := none }] }
  else
    match (recentUploads cave env.uploads).head? with
    | none => { hasUpgrade := false, errSet := false, updates := [] }
    | some upload =>
      if (cave.uploadId != some upload.id)
          || (truthyN upload.buildId && !(truthyN cave.buildId)) then
        { hasUpgrade := false, errSet := false,
          updates := [{ caveId := cave.id,
                        recentUploads := recentUploads cave env.uploads,
                        incremental := false, upgradePath := none }] }
      else { hasUpgrade := false, errSet := false, updates := [] }

/-- Early return of the wharf branch, else the recent-uploads logic. -/
def wharfOrRecent (cave : CaveR) (env : CheckEnv) : CheckResult :=
  match wharfCheck cave env with
  | some r => r
  | none => recentCheck cave env

/-- `_doCheckForGameUpdate` (updater.ts lines 52-259): the skip guards in
source order (installed by another account, not launchable, no game id,
fetch failure, invisible game, running game, findUpload failure, no
uploads), then the wharf branch and the recent-uploads logic. -/
def doCheckForGameUpdate (cave : CaveR) (env : CheckEnv) : CheckResult :=
  if (match cave.installedById, env.meId with
      | some iid, some mid => iid != mid
      | _, _ => false) then
    { hasUpgrade := false, errSet := false, updates := [] }
  else if !cave.launchable then
    { hasUpgrade := false, errSet := false, updates := [] }
  else if !(truthyN cave.gameId) then
    { hasUpgrade := false, errSet := false, updates := [] }
  else if !env.fetchOk then
    { hasUpgrade := false, errSet := true, updates := [] }
  else if !env.gameVisible then
    { hasUpgrade := false, errSet := false, updates := [] }
  else if env.gameRunning then
    { hasUpgrade := false, errSet := false, updates := [] }
  else if !env.findUploadOk then
    { hasUpgrade := false, errSet := true, updates := [] }
  else if env.uploads.length = 0 then
    { hasUpgrade := false, errSet := true, updates := [] }
  else
    wharfOrRecent cave env

/-- Past all the skip guards, the check runs the wharf branch then the
recent-uploads logic. -/
theorem doCheck_guards (cave : CaveR) (env : CheckEnv)
    (hskip : (match cave.installedById, env.meId with
      | some iid, some mid => iid != mid
      | _, _ => false) = false)
    (hlaunch : cave.launchable = true)
    (hgame : truthyN cave.gameId = true)
    (hfetch : env.fetchOk = true)
    (hvis : env.gameVisible = true)
    (hrun : env.gameRunning = false)
    (hfind : env.findUploadOk = true)
    (hne : env.uploads.length ≠ 0) :
    doCheckForGameUpdate cave env = wharfOrRecent cave env := by
  unfold doCheckForGameUpdate
  rw [if_neg (by simp [hskip]), if_neg (by simp [hlaunch]), if_neg (by simp [hgame]),
    if_neg (by simp [hfetch]), if_neg (by simp [hvis]), if_neg (by simp [hrun]),
    if_neg (by simp [hfind]), if_neg hne]

end Itch

namespace Itch

/-- C6: past the skip guards, (1) a cave tracking a build id whose matching
upload carries a different build id yields `hasUpgrade = true` and an
incremental update carrying the computed patch path; (2) an upload build id
equal to the cave's yields no upgrade and no dispatched update; (3) a cave
tracking no build id with more than one upload newer than the install time
surfaces all the recent uploads in one non-incremental update for manual
selection instead of auto-picking one. -/
theorem c6_update_check_decision_table (cave : CaveR) (env : CheckEnv)
    (hskip : (match cave.installedById, env.meId with
      | some iid, some mid => iid != mid
      | _, _ => false) = false)
    (hlaunch : cave.launchable = true)
    (hgame : truthyN cave.gameId = true)
    (hfetch : env.fetchOk = true)
    (hvis : env.gameVisible = true)
    (hrun : env.gameRunning = false)
    (hfind : env.findUploadOk = true)
    (hne : env.uploads.length ≠ 0) :
    (∀ upload : UploadR,
        truthyN cave.uploadId = true → truthyN cave.buildId = true →
        findWhereUpload env.uploads (cave.uploadId.getD 0) = some upload →
        truthyN upload.buildId = true →
        (upload.buildId != cave.buildId) = true →
        env.upgradePathOk = true →
        doCheckForGameUpdate cave env
          = { hasUpgrade := true, errSet := false,
              updates := [{ caveId := cave.id, recentUploads := [upload],
                            incremental := true,
                            upgradePath := some env.upgradePath }] })
  ∧ (∀ upload : UploadR,
        truthyN cave.uploadId = true → truthyN cave.buildId = true →
        findWhereUpload env.uploads (cave.uploadId.getD 0) = some upload →
        truthyN upload.buildId = true →
        (upload.buildId != cave.buildId) = false →
        doCheckForGameUpdate cave env
          = { hasUpgrade := false, errSet := false, updates := [] })
  ∧ (truthyN cave.buildId = false →
        1 < (recentUploads cave env.uploads).length →
        doCheckForGameUpdate cave env
          = { hasUpgrade := true, errSet := false,
              updates := [{ caveId := cave.id,
                            recentUploads := recentUploads cave env.uploads,
                            incremental := false, upgradePath := none }] }) := by
  have hg := doCheck_guards cave env hskip hlaunch hgame hfetch hvis hrun hfind hne
  refine ⟨?_, ?_, ?_⟩
  · intro upload hu hb hfound hub hdiff hpath
    rw [hg]
    unfold wharfOrRecent wharfCheck
    rw [if_pos (by simp [hu, hb])]
    simp only [hfound]
    rw [if_neg (by simp [hub])]
    rw [if_pos hdiff]
    rw [if_pos hpath]
  · intro upload hu hb hfound hub heq
    rw [hg]
    unfold wharfOrRecent wharfCheck
    rw [if_pos (by simp [hu, hb])]
    simp only [hfound]
    rw [if_neg (by simp [hub])]
    rw [if_neg (by simp [heq])]
  · intro hb hlen
    rw [hg]
    unfold wharfOrRecent wharfCheck
    rw [if_neg (by simp [hb])]
    show recentCheck cave env = _
    unfold recentCheck
    rw [if_neg (by omega)]
    rw [if_pos hlen]

/-- Build-tracked upload of the C6 witness: id 2, wharf build 7. -/
def c6Upload : UploadR := ⟨2, some 7, 5⟩

/-- Second recent upload of the ambiguous C6 case. -/
def c6UploadB : UploadR := ⟨3, none, 6⟩

/-- Cave tracking upload 2 at build 5. -/
def c6CaveWharf : CaveR := ⟨1, none, true, some 10, some 2, some 5, some 0⟩

/-- Cave tracking upload 2 at build 7 (equal on both sides). -/
def c6CaveSame : CaveR := ⟨1, none, true, some 10, some 2, some 7, some 0⟩

/-- Cave tracking no upload and no build id. -/
def c6CaveAmb : CaveR := ⟨1, none, true, some 10, none, none, some 0⟩

/-- Environment with the single build-tracked upload and a working patch
path. -/
def c6Env : CheckEnv := ⟨none, true, true, false, true, [c6Upload], true, [6, 7]⟩

/-- Environment with two uploads newer than the install time. -/
def c6EnvAmb : CheckEnv := ⟨none, true, true, false, true, [c6Upload, c6UploadB], true, []⟩

/-- Witness for C6 at the three decision-table rows (cave build 5 against
upload build 7; equal build 7; no tracked build with two recent uploads). -/
theorem c6_update_check_decision_table_witness :
    doCheckForGameUpdate c6CaveWharf c6Env
      = { hasUpgrade := true, errSet := false,
          updates := [{ caveId := 1, recentUploads := [c6Upload],
                        incremental := true, upgradePath := some [6, 7] }] }
  ∧ doCheckForGameUpdate c6CaveSame c6Env
      = { hasUpgrade := false, errSet := false, updates := [] }
  ∧ doCheckForGameUpdate c6CaveAmb c6EnvAmb
      = { hasUpgrade := true, errSet := false,
          updates := [{ caveId := 1, recentUploads := [c6Upload, c6UploadB],
                        incremental := false, upgradePath := none }] } := by
  refine ⟨?_, ?_, ?_⟩
  · exact (c6_update_check_decision_table c6CaveWharf c6Env rfl rfl rfl rfl rfl rfl rfl
      (by decide)).1 c6Upload rfl rfl rfl rfl rfl rfl
  · exact (c6_update_check_decision_table c6CaveSame c6Env rfl rfl rfl rfl rfl rfl rfl
      (by decide)).2.1 c6Upload rfl rfl rfl rfl rfl
  · exact (c6_update_check_decision_table c6CaveAmb c6EnvAmb rfl rfl rfl rfl rfl rfl rfl
      (by decide)).2.2 rfl (by decide)

end Itch
